import Mathlib

/-!
Verification of the stn_updater core against its specification.

The definitions below are a shallow embedding of the Rust sources:
machine integers are modelled as `Nat` with explicit truncation where the
source truncates, byte buffers as `List Nat`, and fallible operations as
`Except`.  `SerialCodec` comes from `src/codec.rs`, `StnCodec` from
`src/stn/codec.rs`, the protocol validation from `src/protocol.rs`, the
updater control flow from `src/updater.rs` and the firmware file reader
from `src/firmware.rs`.
-/

set_option maxRecDepth 100000

deriving instance DecidableEq for Except

namespace StnUpdater

/-! ## CRC-16/XMODEM

The Rust code uses the crc crate's CRC_16_XMODEM (polynomial 0x1021,
init 0, no reflection, xorout 0), updated byte-wise. -/

/-- One shift step of the MSB-first CRC-16 computation with polynomial
0x1021: shift left by one and xor in the polynomial when the bit shifted
out was set.  States are kept below 2^16. -/
def crcShift (c : Nat) : Nat :=
  if c &&& 0x8000 = 0 then (2 * c) % 65536 else ((2 * c) ^^^ 0x1021) % 65536

/-- Feed one byte into the CRC-16 state: xor the byte into the top eight
bits, then run eight shift steps. -/
def crcUpdate (c b : Nat) : Nat :=
  crcShift^[8] (c ^^^ ((b % 256) <<< 8))

/-- CRC-16/XMODEM of a byte sequence (init 0, xorout 0). -/
def crc16 (l : List Nat) : Nat :=
  l.foldl crcUpdate 0

/-! ## Frame codec (`src/codec.rs`) -/

/-- STX constant of `SerialCodec`. -/
def STX : Nat := 0x55
/-- ETX constant of `SerialCodec`. -/
def ETX : Nat := 0x04
/-- DLE constant of `SerialCodec`. -/
def DLE : Nat := 0x05

/-- `RequestFrame` of `src/codec.rs`. -/
structure RequestFrame where
  command : Nat
  data : List Nat
deriving DecidableEq, Repr

/-- `ResponseFrame` of `src/codec.rs`. -/
structure ResponseFrame where
  ack : Bool
  command : Nat
  data : List Nat
deriving DecidableEq, Repr

/-- The decoder's error cases.  The source reports all of them as
`Error::IOError(InvalidData, msg)`; the constructors here mirror the four
distinct messages (bad preamble, unexpected STX, bad frame, bad CRC). -/
inductive CodecError where
  | badStx
  | unexpectedStx
  | badFraming
  | badCrc
deriving DecidableEq, Repr

/-- `SerialCodec::byte_stuff`: a special byte (STX, ETX or DLE) is
prefixed with DLE on the wire. -/
def byteStuff (b : Nat) : List Nat :=
  if b = STX ∨ b = ETX ∨ b = DLE then [DLE, b] else [b]

/-- Byte-stuff a whole logical byte sequence. -/
def stuff (l : List Nat) : List Nat :=
  (l.map byteStuff).flatten

/-- `SerialCodec::encode`: emit the doubled STX preamble, the stuffed
command byte, the stuffed two-byte big-endian length (`data.len() as
u16`), the stuffed data bytes, the stuffed big-endian CRC over
command ‖ length ‖ data, and the terminating ETX.  The source never
returns an error. -/
def serialEncode (f : RequestFrame) : Except CodecError (List Nat) :=
  let lenHi := (f.data.length % 65536) / 256
  let lenLo := (f.data.length % 65536) % 256
  let crc := crc16 (f.command :: lenHi :: lenLo :: f.data)
  .ok ([STX, STX] ++ byteStuff f.command ++ byteStuff lenHi ++ byteStuff lenLo
        ++ stuff f.data ++ byteStuff (crc / 256) ++ byteStuff (crc % 256) ++ [ETX])

/-- Add `n` to the consumed-byte count inside a decoder result. -/
def addConsumed (n : Nat) :
    Except CodecError (Option (ResponseFrame × Nat)) →
    Except CodecError (Option (ResponseFrame × Nat))
  | .ok (some (f, k)) => .ok (some (f, k + n))
  | r => r

/-- The body of the decoder's scan loop (`SerialCodec::decode`, walking
from index 2 with a skip flag and an accumulated logical byte list).  On
finding the terminating ETX it performs the length check, the CRC check,
and splits the logical bytes into ack bit, command, length and data.  The
returned `Nat` counts the bytes of `rest` consumed up to and including the
ETX. -/
def frameWalk : List Nat → Bool → List Nat →
    Except CodecError (Option (ResponseFrame × Nat))
  | [], _, _ => .ok none
  | b :: rs, skip, acc =>
    if skip then
      addConsumed 1 (frameWalk rs false (acc ++ [b]))
    else if b = STX then
      .error .unexpectedStx
    else if b = ETX then
      if acc.length < 4 then
        .error .badFraming
      else if acc.getD 1 0 ≠ acc.length - 4 then
        .error .badFraming
      else if crc16 acc ≠ 0 then
        .error .badCrc
      else
        .ok (some (⟨(acc.getD 0 0 &&& 0x40) == 0x40,
                    acc.getD 0 0 &&& 0x3F,
                    (acc.drop 2).take (acc.getD 1 0)⟩, 1))
    else if b = DLE then
      addConsumed 1 (frameWalk rs true acc)
    else
      addConsumed 1 (frameWalk rs false (acc ++ [b]))

/-- `SerialCodec::decode` on a read buffer: `.ok none` is need-more-data;
on success the `Nat` is the number of bytes the source advances the
buffer by (`idx + 1`, consuming the ETX). -/
def serialDecode (src : List Nat) : Except CodecError (Option (ResponseFrame × Nat)) :=
  if src.length < 2 then .ok none
  else if src.take 2 ≠ [STX, STX] then .error .badStx
  else addConsumed 2 (frameWalk (src.drop 2) false [])

/-- `StnCodec::decode` of `src/stn/codec.rs`: identical scan, but the
source advances the buffer by `idx`, leaving the terminating ETX byte in
the buffer. -/
def stnDecode (src : List Nat) : Except CodecError (Option (ResponseFrame × Nat)) :=
  match serialDecode src with
  | .ok (some (f, k)) => .ok (some (f, k - 1))
  | r => r

/-! ## CRC-16 facts -/

theorem crcShift_lt (c : Nat) : crcShift c < 65536 := by
  unfold crcShift
  split <;> exact Nat.mod_lt _ (by norm_num)

theorem crcUpdate_lt (c b : Nat) : crcUpdate c b < 65536 := by
  unfold crcUpdate
  rw [Function.iterate_succ_apply']
  exact crcShift_lt _

theorem crc16_lt (l : List Nat) : crc16 l < 65536 := by
  unfold crc16
  induction l with
  | nil => norm_num
  | cons b t ih =>
    cases t with
    | nil => exact crcUpdate_lt 0 b
    | cons c u =>
      rw [List.foldl_cons]
      have : ∀ (m : List Nat) (s : Nat), s < 65536 → m.foldl crcUpdate s < 65536 := by
        intro m
        induction m with
        | nil => intro s hs; simpa using hs
        | cons x xs ihm =>
          intro s _
          rw [List.foldl_cons]
          exact ihm _ (crcUpdate_lt s x)
      exact this _ _ (crcUpdate_lt 0 b)

/-- Xor-ing away the high byte of a 16-bit value leaves the low byte. -/
theorem xor_high_byte (r : Nat) : r ^^^ ((r >>> 8) <<< 8) = r % 256 := by
  apply Nat.eq_of_testBit_eq
  intro i
  rw [Nat.testBit_xor, Nat.testBit_shiftLeft, Nat.testBit_shiftRight,
    show (256 : Nat) = 2 ^ 8 by norm_num, Nat.testBit_mod_two_pow]
  rcases Nat.lt_or_ge i 8 with h | h
  · have h8 : ¬ (8 ≤ i) := by omega
    simp [h, h8]
  · have h8 : 8 + (i - 8) = i := by omega
    simp [h8, Nat.le_of_lt, h, Nat.not_lt.mpr h]

/-- Feeding the 16-bit CRC state's own two big-endian bytes back into the
byte-update drives the state to zero (checked for all 256 low-byte
values). -/
theorem crc_selfcheck : ∀ v < 256, crcShift^[8] ((crcShift^[8] v) ^^^ (v <<< 8)) = 0 := by
  decide

/-- Appending the big-endian CRC-16 of a message to the message yields a
sequence whose CRC-16 is zero: this is why the decoder verifies a frame by
requiring the digest of logical-bytes-plus-CRC to be zero. -/
theorem crc16_append_self (m : List Nat) :
    crc16 (m ++ [crc16 m / 256, crc16 m % 256]) = 0 := by
  have hr : crc16 m < 65536 := crc16_lt m
  have hhi : crc16 m / 256 < 256 := by omega
  have hlo : crc16 m % 256 < 256 := Nat.mod_lt _ (by norm_num)
  have hfold : crc16 (m ++ [crc16 m / 256, crc16 m % 256]) =
      crcUpdate (crcUpdate (crc16 m) (crc16 m / 256)) (crc16 m % 256) := by
    unfold crc16
    rw [List.foldl_append]
    rfl
  rw [hfold]
  have hshift : crc16 m / 256 = crc16 m >>> 8 := by
    rw [Nat.shiftRight_eq_div_pow]
  have h1 : crcUpdate (crc16 m) (crc16 m / 256) = crcShift^[8] (crc16 m % 256) := by
    unfold crcUpdate
    rw [Nat.mod_eq_of_lt hhi, hshift, xor_high_byte]
  rw [h1]
  unfold crcUpdate
  rw [Nat.mod_eq_of_lt (Nat.mod_lt _ (by norm_num))]
  exact crc_selfcheck _ hlo

/-! ## Decoder walk facts -/

theorem addConsumed_zero (r : Except CodecError (Option (ResponseFrame × Nat))) :
    addConsumed 0 r = r := by
  rcases r with e | (_ | ⟨f, k⟩) <;> rfl

theorem addConsumed_addConsumed (m n : Nat)
    (r : Except CodecError (Option (ResponseFrame × Nat))) :
    addConsumed m (addConsumed n r) = addConsumed (n + m) r := by
  rcases r with e | (_ | ⟨f, k⟩) <;> simp [addConsumed, Nat.add_assoc]

/-- Scanning a stuffed byte sequence never terminates the walk: it only
accumulates the unstuffed logical bytes and the consumed count. -/
theorem frameWalk_stuff (L : List Nat) : ∀ (rest acc : List Nat),
    frameWalk (stuff L ++ rest) false acc =
      addConsumed (stuff L).length (frameWalk rest false (acc ++ L)) := by
  induction L with
  | nil =>
    intro rest acc
    simp [stuff, addConsumed_zero]
  | cons b t ih =>
    intro rest acc
    have hstuff : stuff (b :: t) = byteStuff b ++ stuff t := by
      simp [stuff]
    by_cases hb : b = STX ∨ b = ETX ∨ b = DLE
    · have hbs : byteStuff b = [DLE, b] := by simp [byteStuff, hb]
      have hne : ¬ (DLE = STX) := by decide
      have hne2 : ¬ (DLE = ETX) := by decide
      rw [hstuff, hbs]
      show frameWalk (DLE :: b :: (stuff t ++ rest)) false acc = _
      rw [show frameWalk (DLE :: b :: (stuff t ++ rest)) false acc =
            addConsumed 1 (frameWalk (b :: (stuff t ++ rest)) true acc) by
          simp [frameWalk, hne, hne2]]
      rw [show frameWalk (b :: (stuff t ++ rest)) true acc =
            addConsumed 1 (frameWalk (stuff t ++ rest) false (acc ++ [b])) by
          simp [frameWalk]]
      rw [ih rest (acc ++ [b]), addConsumed_addConsumed, addConsumed_addConsumed]
      have e1 : acc ++ [b] ++ t = acc ++ b :: t := by simp
      have e2 : ([DLE, b] ++ stuff t).length = (stuff t).length + 1 + 1 := by
        simp only [List.length_append, List.length_cons, List.length_nil]
        omega
      rw [e1, e2]
    · push_neg at hb
      obtain ⟨h1, h2, h3⟩ := hb
      have hbs : byteStuff b = [b] := by simp [byteStuff, h1, h2, h3]
      rw [hstuff, hbs]
      show frameWalk (b :: (stuff t ++ rest)) false acc = _
      rw [show frameWalk (b :: (stuff t ++ rest)) false acc =
            addConsumed 1 (frameWalk (stuff t ++ rest) false (acc ++ [b])) by
          simp [frameWalk, h1, h2, h3]]
      rw [ih rest (acc ++ [b]), addConsumed_addConsumed]
      simp [hbs, Nat.add_comm]

/-- Hitting the terminating ETX with logical bytes that pass the length
and CRC checks produces the split frame. -/
theorem frameWalk_etx (acc rest : List Nat) (h4 : 4 ≤ acc.length)
    (hlen : acc.getD 1 0 = acc.length - 4) (hcrc : crc16 acc = 0) :
    frameWalk (ETX :: rest) false acc =
      .ok (some (⟨(acc.getD 0 0 &&& 0x40) == 0x40,
                  acc.getD 0 0 &&& 0x3F,
                  (acc.drop 2).take (acc.getD 1 0)⟩, 1)) := by
  have h1 : ¬ (ETX = STX) := by decide
  have h2 : ¬ (acc.length < 4) := by omega
  have hlen' : acc[1]?.getD 0 = acc.length - 4 := by
    simpa [List.getD] using hlen
  simp [frameWalk, h1, h2, hlen', hcrc, List.getD]

/-- `SerialCodec::decode` on a complete well-formed wire frame: the STX
preamble, the stuffed logical bytes, the terminating ETX.  The decoder
returns the split frame and consumes the entire buffer including the
ETX. -/
theorem serialDecode_wire (L : List Nat) (h4 : 4 ≤ L.length)
    (hlen : L.getD 1 0 = L.length - 4) (hcrc : crc16 L = 0) :
    serialDecode ([STX, STX] ++ stuff L ++ [ETX]) =
      .ok (some (⟨(L.getD 0 0 &&& 0x40) == 0x40,
                  L.getD 0 0 &&& 0x3F,
                  (L.drop 2).take (L.getD 1 0)⟩, (stuff L).length + 3)) := by
  have hlen2 : ¬ (([STX, STX] ++ stuff L ++ [ETX]).length < 2) := by
    simp
  rw [serialDecode]
  rw [if_neg hlen2]
  have htake : ([STX, STX] ++ stuff L ++ [ETX]).take 2 = [STX, STX] := by
    simp
  rw [if_neg (by rw [htake]; exact fun h => h rfl)]
  have hdrop : ([STX, STX] ++ stuff L ++ [ETX]).drop 2 = stuff L ++ [ETX] := by
    simp
  rw [hdrop, frameWalk_stuff L [ETX] [], List.nil_append,
    frameWalk_etx L [] h4 hlen hcrc, addConsumed_addConsumed]
  simp only [addConsumed, Except.ok.injEq, Option.some.injEq, Prod.mk.injEq, true_and]
  omega

/-- The logical byte sequence of a well-formed response frame as the
device would send it: command byte with the ack bit set, a single length
byte, the data, and the big-endian CRC over those bytes. -/
def respLogical (cmd : Nat) (data : List Nat) : List Nat :=
  ((cmd ||| 0x40) :: data.length :: data)
    ++ [crc16 ((cmd ||| 0x40) :: data.length :: data) / 256,
        crc16 ((cmd ||| 0x40) :: data.length :: data) % 256]

theorem ack_bits : ∀ c < 64, ((c ||| 64) &&& 64 = 64 ∧ (c ||| 64) &&& 63 = c) := by
  decide

theorem stuff_append (a b : List Nat) : stuff (a ++ b) = stuff a ++ stuff b := by
  simp [stuff]

theorem stuff_singleton (b : Nat) : stuff [b] = byteStuff b := by
  simp [stuff]

/-- Decoding a wire frame whose logical bytes are a response-format frame
(command with ack bit, one length byte, data, CRC) recovers the command
and the data. -/
theorem serialDecode_resp (cmd : Nat) (data : List Nat) (hcmd : cmd ≤ 0x3F) :
    serialDecode ([STX, STX] ++ stuff (respLogical cmd data) ++ [ETX]) =
      .ok (some (⟨true, cmd, data⟩, (stuff (respLogical cmd data)).length + 3)) := by
  have hbits := ack_bits cmd (by omega)
  have hL4 : 4 ≤ (respLogical cmd data).length := by
    simp [respLogical]
  have hL1 : (respLogical cmd data).getD 1 0 = (respLogical cmd data).length - 4 := by
    simp [respLogical, List.getD]
  have hLcrc : crc16 (respLogical cmd data) = 0 := crc16_append_self _
  rw [serialDecode_wire _ hL4 hL1 hLcrc]
  have h0 : (respLogical cmd data).getD 0 0 = cmd ||| 0x40 := by
    simp [respLogical, List.getD]
  have h1 : (respLogical cmd data).getD 1 0 = data.length := by
    simp [respLogical, List.getD]
  have hdata : ((respLogical cmd data).drop 2).take data.length = data := by
    have : (respLogical cmd data).drop 2 =
        data ++ [crc16 ((cmd ||| 0x40) :: data.length :: data) / 256,
                 crc16 ((cmd ||| 0x40) :: data.length :: data) % 256] := by
      simp [respLogical]
    rw [this]
    exact List.take_left data
      [crc16 ((cmd ||| 0x40) :: data.length :: data) / 256,
       crc16 ((cmd ||| 0x40) :: data.length :: data) % 256]
  rw [h0, h1, hdata, hbits.1, hbits.2]
  simp

/-- Hitting the terminating ETX with a logical byte sequence whose second
byte does not match the length check fails with the bad-frame error. -/
theorem frameWalk_etx_badlen (acc rest : List Nat) (h4 : ¬ (acc.length < 4))
    (hlen : acc.getD 1 0 ≠ acc.length - 4) :
    frameWalk (ETX :: rest) false acc = .error .badFraming := by
  have h1 : ¬ (ETX = STX) := by decide
  have hlen' : ¬ (acc[1]?.getD 0 = acc.length - 4) := by
    simpa [List.getD_eq_getElem?_getD] using hlen
  simp [frameWalk, h1, h4, hlen']

/-- The output of `SerialCodec::encode` is never decodable by
`SerialCodec::decode`: the encoder emits a two-byte length field while
the decoder's length check expects a single length byte, so the check
`logical[1] = len(logical) - 4` compares the high length byte `0` against
`len(data) + 1` and always fails. -/
theorem serialEncode_not_decodable (f : RequestFrame) (hlen : f.data.length ≤ 255)
    (bs : List Nat) (henc : serialEncode f = .ok bs) :
    serialDecode bs = .error .badFraming := by
  have hm : f.data.length % 65536 = f.data.length := Nat.mod_eq_of_lt (by omega)
  have hhi : f.data.length / 256 = 0 := Nat.div_eq_of_lt (by omega)
  have hlo : f.data.length % 256 = f.data.length := Nat.mod_eq_of_lt (by omega)
  have hbs : bs = [STX, STX] ++
      stuff ((f.command :: 0 :: f.data.length :: f.data) ++
        [crc16 (f.command :: 0 :: f.data.length :: f.data) / 256,
         crc16 (f.command :: 0 :: f.data.length :: f.data) % 256]) ++ [ETX] := by
    have := henc.symm
    rw [serialEncode] at this
    simp only [hm, hhi, hlo] at this
    rw [Except.ok.injEq] at this
    rw [this]
    simp [stuff, List.append_assoc]
  set L := (f.command :: 0 :: f.data.length :: f.data) ++
    [crc16 (f.command :: 0 :: f.data.length :: f.data) / 256,
     crc16 (f.command :: 0 :: f.data.length :: f.data) % 256] with hLdef
  have hL4 : ¬ (L.length < 4) := by
    simp [hLdef]
  have hL1 : L.getD 1 0 ≠ L.length - 4 := by
    simp [hLdef, List.getD]
  rw [hbs, serialDecode]
  have hlen2 : ¬ (([STX, STX] ++ stuff L ++ [ETX]).length < 2) := by simp
  rw [if_neg hlen2]
  have htake : ([STX, STX] ++ stuff L ++ [ETX]).take 2 = [STX, STX] := by simp
  rw [if_neg (by rw [htake]; exact fun h => h rfl)]
  have hdrop : ([STX, STX] ++ stuff L ++ [ETX]).drop 2 = stuff L ++ [ETX] := by simp
  rw [hdrop, frameWalk_stuff L [ETX] [], List.nil_append,
    frameWalk_etx_badlen L [] hL4 hL1]
  rfl

/-! ## Claims C1 - C4 -/

/-- Claim C1, counterexample: encoding `RequestFrame{command=0x03, data=[]}`
produces `55 55 03 00 00 59 50 04`; setting bit 6 on the first logical byte
and decoding does not yield a `ResponseFrame` with the same command and
data: the decoder rejects the buffer with the bad-frame error, because the
encoder wrote a two-byte length field while the decoder expects a
single-byte one. -/
theorem claim1_counterexample :
    serialEncode ⟨0x03, []⟩ = .ok [0x55, 0x55, 0x03, 0x00, 0x00, 0x59, 0x50, 0x04] ∧
    serialDecode [0x55, 0x55, 0x03 ||| 0x40, 0x00, 0x00, 0x59, 0x50, 0x04] =
      .error .badFraming := by
  decide

/-- Claim C1, amended: the encoder's output is never decodable (its
two-byte length field always fails the decoder's one-byte length check
with `BadFraming`); the codec round-trip holds instead for
response-format frames: for every `command ≤ 0x3F` and `data` of length
`≤ 255`, decoding the stuffed wire frame whose logical bytes are
`[command ||| 0x40, len(data)] ++ data ++ crc` yields
`ResponseFrame{ack=true, command, data}`. -/
theorem claim1_amended (cmd : Nat) (data : List Nat) (hcmd : cmd ≤ 0x3F)
    (hlen : data.length ≤ 255) :
    serialDecode ([STX, STX] ++ stuff (respLogical cmd data) ++ [ETX]) =
      .ok (some (⟨true, cmd, data⟩, (stuff (respLogical cmd data)).length + 3)) ∧
    ∀ bs, serialEncode ⟨cmd, data⟩ = .ok bs → serialDecode bs = .error .badFraming :=
  ⟨serialDecode_resp cmd data hcmd,
   fun bs h => serialEncode_not_decodable ⟨cmd, data⟩ hlen bs h⟩

/-- Claim C1, witness: the amended round-trip at `command = 0x06`,
`data = [0x04, 0x01]`. -/
theorem claim1_amended_witness :
    serialDecode ([STX, STX] ++ stuff (respLogical 0x06 [0x04, 0x01]) ++ [ETX]) =
      .ok (some (⟨true, 0x06, [0x04, 0x01]⟩,
                 (stuff (respLogical 0x06 [0x04, 0x01])).length + 3)) :=
  (claim1_amended 0x06 [0x04, 0x01] (by decide) (by decide)).1

/-- Claim C2, counterexample: `SerialCodec::encode` returns `Ok`, not an
error, on a request frame whose data is 256 bytes long. -/
theorem claim2_counterexample :
    255 < (List.replicate 256 (0 : Nat)).length ∧
    (serialEncode ⟨0x01, List.replicate 256 0⟩).isOk = true := by
  exact ⟨by norm_num [List.length_replicate], rfl⟩

/-- Claim C2, amended: `SerialCodec::encode` never rejects oversize
payloads; it returns `Ok` for every request frame with `len(data) > 255`
(the length field is emitted as `len(data) as u16`, truncated mod 2^16). -/
theorem claim2_amended (f : RequestFrame) (hlen : 255 < f.data.length) :
    (serialEncode f).isOk = true := rfl

/-- Claim C2, witness: the amended statement at a 300-byte payload. -/
theorem claim2_amended_witness :
    255 < (List.replicate 300 (7 : Nat)).length ∧
    (serialEncode ⟨0x02, List.replicate 300 7⟩).isOk = true :=
  ⟨by norm_num [List.length_replicate],
   claim2_amended ⟨0x02, List.replicate 300 7⟩ (by norm_num [List.length_replicate])⟩

/-- Claim C3: decoding a valid frame splits the logical bytes as
specified — ack is bit 6 of `logical[0]`, command is
`logical[0] &&& 0x3F`, length is `logical[1]`, data is
`logical[2 .. 2+length]` with the trailing CRC bytes discarded — and in
particular decoding `55 55 46 02 05 04 01 FB 80 04` yields
`ResponseFrame{ack=true, command=0x06, data=[0x04, 0x01]}`. -/
theorem claim3_decode_split :
    (∀ L : List Nat, 4 ≤ L.length → L.getD 1 0 = L.length - 4 → crc16 L = 0 →
      serialDecode ([STX, STX] ++ stuff L ++ [ETX]) =
        .ok (some (⟨(L.getD 0 0 &&& 0x40) == 0x40, L.getD 0 0 &&& 0x3F,
                    (L.drop 2).take (L.getD 1 0)⟩, (stuff L).length + 3))) ∧
    serialDecode [0x55, 0x55, 0x46, 0x02, 0x05, 0x04, 0x01, 0xFB, 0x80, 0x04] =
      .ok (some (⟨true, 0x06, [0x04, 0x01]⟩, 10)) := by
  constructor
  · intro L h4 h1 hc
    exact serialDecode_wire L h4 h1 hc
  · decide

/-- Claim C3, witness: the universal part applied to the logical bytes
`46 02 04 01 FB 80` of the concrete test frame. -/
theorem claim3_decode_split_witness :
    serialDecode ([STX, STX] ++ stuff [0x46, 0x02, 0x04, 0x01, 0xFB, 0x80] ++ [ETX]) =
      .ok (some (⟨true, 0x06, [0x04, 0x01]⟩, 10)) := by
  have h := claim3_decode_split.1 [0x46, 0x02, 0x04, 0x01, 0xFB, 0x80]
    (by decide) (by decide) (by decide)
  exact h.trans (by decide)

/-- Claim C4: on the frame `55 55 46 02 05 04 01 FB 80 04`, `SerialCodec`
advances the buffer by `idx + 1 = 10`, consuming the terminating ETX,
while the `StnCodec` variant advances by `idx = 9`, leaving the ETX byte
`04` in the buffer for the next decode attempt. -/
theorem claim4_etx_consumption :
    serialDecode [0x55, 0x55, 0x46, 0x02, 0x05, 0x04, 0x01, 0xFB, 0x80, 0x04] =
      .ok (some (⟨true, 0x06, [0x04, 0x01]⟩, 10)) ∧
    stnDecode [0x55, 0x55, 0x46, 0x02, 0x05, 0x04, 0x01, 0xFB, 0x80, 0x04] =
      .ok (some (⟨true, 0x06, [0x04, 0x01]⟩, 9)) ∧
    List.drop 9 [0x55, 0x55, 0x46, 0x02, 0x05, 0x04, 0x01, 0xFB, 0x80, 0x04] = [ETX] := by
  decide

/-! ## Updater receive path (`src/updater.rs`, `src/protocol.rs`)

The asynchronous receive path is embedded by abstracting I/O: what the
stream yields during one `inner_recv_response` call is a finite list of
read events (a decoded frame, or a decoder error, which the source's
`if let Some(Ok(..))` silently skips); running off the end of the list
stands for the deadline elapsing, which the source surfaces as
`Timeout` after clearing the read buffer. -/

/-- The error type of `src/error.rs`. -/
inductive UpdError where
  | ioError
  | invalidCommand (f : ResponseFrame)
  | invalidResponse (f : ResponseFrame)
  | binCode
  | timeout
  | other
  | placeholder
deriving DecidableEq, Repr

/-- `Response::from_frame::<R>` of `src/protocol.rs`, with the expected
`R::COMMAND` and the payload deserializer passed explicitly: a wrong
command surfaces `InvalidCommand`, a clear ack bit `InvalidResponse`,
otherwise the payload is deserialized. -/
def fromFrame {α : Type} (cmd : Nat) (parse : List Nat → Except UpdError α)
    (f : ResponseFrame) : Except UpdError α :=
  if f.command ≠ cmd then .error (.invalidCommand f)
  else if f.ack = false then .error (.invalidResponse f)
  else parse f.data

/-- One event yielded by `framed.next()` during a receive: a decoded
frame, or a decoder error. -/
inductive ReadEvent where
  | frame (f : ResponseFrame)
  | decodeError (e : UpdError)
deriving DecidableEq, Repr

/-- `Updater::inner_recv_response`: read events until a decoded frame
arrives, return `from_frame` of it (errors included, via `?`); a decoder
error fails the `if let Some(Ok(..))` pattern and is silently skipped;
an exhausted event list is the elapsed deadline, surfaced as `Timeout`. -/
def innerRecvResponse {α : Type} (cmd : Nat) (parse : List Nat → Except UpdError α) :
    List ReadEvent → Except UpdError α
  | [] => .error .timeout
  | .frame f :: _ => fromFrame cmd parse f
  | .decodeError _ :: rest => innerRecvResponse cmd parse rest

/-- Whether a receive result is the timeout error (the pattern of the
source's `while let Err(Error::Timeout)`). -/
def isTimeout {α : Type} : Except UpdError α → Bool
  | .error .timeout => true
  | _ => false

/-- The `while let Err(Timeout)` loop of `Updater::recv_response`:
`attempts i` is the result of the inner receive that follows the `i`-th
`ResendLast` send (`attempts 0` is the initial receive).  Returns the
final response and the number of `ResendLast` frames written, which is
the loop's final `index`. -/
def resendLoop {α : Type} (attempts : Nat → Except UpdError α) (retry : Nat)
    (resp : Except UpdError α) (index : Nat) : Except UpdError α × Nat :=
  if isTimeout resp then
    if h : retry ≤ index + 1 then (attempts (index + 1), index + 1)
    else resendLoop attempts retry (attempts (index + 1)) (index + 1)
  else (resp, index)
termination_by retry - index
decreasing_by omega

/-- `Updater::recv_response`: the initial inner receive followed by the
resend loop. -/
def recvResponse {α : Type} (attempts : Nat → Except UpdError α) (retry : Nat) :
    Except UpdError α × Nat :=
  resendLoop attempts retry (attempts 0) 0

theorem recvResponse_of_not_timeout {α : Type} (attempts : Nat → Except UpdError α)
    (retry : Nat) (h : isTimeout (attempts 0) = false) :
    recvResponse attempts retry = (attempts 0, 0) := by
  rw [recvResponse, resendLoop, h]
  simp

theorem resendLoop_count_le {α : Type} (attempts : Nat → Except UpdError α)
    (retry : Nat) : ∀ (n : Nat) (resp : Except UpdError α) (i : Nat), retry - i ≤ n →
    (resendLoop attempts retry resp i).2 ≤ max retry (i + 1) := by
  intro n
  induction n with
  | zero =>
    intro resp i hn
    rw [resendLoop]
    by_cases ht : isTimeout resp
    · rw [if_pos ht, dif_pos (by omega)]
      show i + 1 ≤ max retry (i + 1)
      omega
    · rw [if_neg ht]
      show i ≤ max retry (i + 1)
      omega
  | succ n ih =>
    intro resp i hn
    rw [resendLoop]
    by_cases ht : isTimeout resp
    · rw [if_pos ht]
      by_cases hr : retry ≤ i + 1
      · rw [dif_pos hr]
        show i + 1 ≤ max retry (i + 1)
        omega
      · rw [dif_neg hr]
        have := ih (attempts (i + 1)) (i + 1) (by omega)
        calc (resendLoop attempts retry (attempts (i + 1)) (i + 1)).2
            ≤ max retry (i + 2) := this
          _ ≤ max retry (i + 1) := by omega
    · rw [if_neg ht]
      show i ≤ max retry (i + 1)
      omega

theorem resendLoop_all_timeout {α : Type} (attempts : Nat → Except UpdError α)
    (retry : Nat) (hall : ∀ i, attempts i = .error .timeout) :
    ∀ (n i : Nat), retry - i ≤ n →
    resendLoop attempts retry (.error .timeout) i = (.error .timeout, max retry (i + 1)) := by
  have htt : isTimeout (Except.error UpdError.timeout : Except UpdError α) = true := rfl
  intro n
  induction n with
  | zero =>
    intro i hn
    rw [resendLoop]
    rw [if_pos htt, dif_pos (by omega), hall]
    have : max retry (i + 1) = i + 1 := by omega
    rw [this]
  | succ n ih =>
    intro i hn
    rw [resendLoop]
    rw [if_pos htt]
    by_cases hr : retry ≤ i + 1
    · rw [dif_pos hr, hall]
      have : max retry (i + 1) = i + 1 := by omega
      rw [this]
    · rw [dif_neg hr, hall]
      rw [ih (i + 1) (by omega)]
      have : max retry (i + 2) = max retry (i + 1) := by omega
      rw [this]

/-! ## Claims C5 and C6 -/

/-- Claim C5, counterexample: a `recv_response` call with
`resend_retry = 0` whose reads all time out surfaces `Timeout` after
writing one `ResendLast` frame, not zero: the source's loop sends before
testing `index >= resend_retry`. -/
theorem claim5_counterexample :
    recvResponse (fun _ => (.error .timeout : Except UpdError Unit)) 0 =
      (.error .timeout, 1) := by
  rw [recvResponse, resendLoop]
  simp [isTimeout]

/-- Claim C5, amended: `recv_response` sends `ResendLast` only after a
timeout (a first read that is not a timeout produces zero resends), and
when timeouts persist it sends exactly `max(resend_retry, 1)` resends
before surfacing `Timeout`; in particular `resend_retry = 0` still writes
one `ResendLast` frame. -/
theorem claim5_amended {α : Type} (attempts : Nat → Except UpdError α) (retry : Nat) :
    (isTimeout (attempts 0) = false → recvResponse attempts retry = (attempts 0, 0)) ∧
    (recvResponse attempts retry).2 ≤ max retry 1 ∧
    ((∀ i, attempts i = .error .timeout) →
      recvResponse attempts retry = (.error .timeout, max retry 1)) := by
  refine ⟨recvResponse_of_not_timeout attempts retry, ?_, ?_⟩
  · exact resendLoop_count_le attempts retry retry (attempts 0) 0 (by omega)
  · intro hall
    rw [recvResponse, hall 0]
    exact resendLoop_all_timeout attempts retry hall retry 0 (by omega)

/-- Claim C5, witness: with persistent timeouts and `resend_retry = 2`,
the call surfaces `Timeout` after exactly two resends. -/
theorem claim5_amended_witness :
    recvResponse (fun _ => (.error .timeout : Except UpdError Unit)) 2 =
      (.error .timeout, 2) :=
  (claim5_amended (fun _ => (.error .timeout : Except UpdError Unit)) 2).2.2
    (fun _ => rfl)

/-- Claim C6, counterexample: a malformed frame (a decoder error in the
event stream) does not surface its error: `inner_recv_response` skips it
and, with nothing else arriving, surfaces `Timeout` instead of the
decoder's error. -/
theorem claim6_counterexample :
    innerRecvResponse 0x03 (fun _ => (.ok () : Except UpdError Unit))
        [.decodeError .ioError] = .error .timeout ∧
    (.error .timeout : Except UpdError Unit) ≠ .error .ioError := by
  exact ⟨rfl, by decide⟩

/-- Claim C6, amended: a command-mismatched frame surfaces
`InvalidCommand` immediately — independent of later events and with zero
`ResendLast` frames written — but a malformed frame (decoder error) is
silently skipped by the `if let Some(Ok(..))` pattern, so its error never
surfaces; only a later frame or the timeout does. -/
theorem claim6_amended {α : Type} (cmd : Nat) (parse : List Nat → Except UpdError α)
    (f : ResponseFrame) (rest : List ReadEvent) (retry : Nat) (hne : f.command ≠ cmd) :
    innerRecvResponse cmd parse (.frame f :: rest) = .error (.invalidCommand f) ∧
    recvResponse (fun _ => innerRecvResponse cmd parse (.frame f :: rest)) retry =
      (.error (.invalidCommand f), 0) ∧
    (∀ e rest2, innerRecvResponse cmd parse (.decodeError e :: rest2) =
      innerRecvResponse cmd parse rest2) := by
  have h1 : innerRecvResponse cmd parse (.frame f :: rest) = .error (.invalidCommand f) := by
    simp [innerRecvResponse, fromFrame, hne]
  refine ⟨h1, ?_, fun e rest2 => rfl⟩
  have h2 : isTimeout (innerRecvResponse cmd parse (.frame f :: rest)) = false := by
    rw [h1]; rfl
  rw [recvResponse_of_not_timeout _ retry h2, h1]

/-- Claim C6, witness: a frame echoing command 7 when command 3 was
expected surfaces `InvalidCommand` with zero resends. -/
theorem claim6_amended_witness :
    recvResponse (fun _ => innerRecvResponse 0x03
        (fun _ => (.ok () : Except UpdError Unit)) [.frame ⟨true, 0x07, []⟩]) 5 =
      (.error (.invalidCommand ⟨true, 0x07, []⟩), 0) :=
  (claim6_amended 0x03 (fun _ => (.ok () : Except UpdError Unit))
    ⟨true, 0x07, []⟩ [] 5 (by decide)).2.1

/-! ## `Updater::connect` (`src/updater.rs` lines 116-131)

The `transmit(Connect, ..)` exchanges are abstracted by a boolean oracle
per attempt: `outcome 0` is the initial transmit, `outcome i` for
`i ≥ 1` the i-th post-reset transmit.  Each model returns the final
result, the trace of `(timeout_ms, resend_retry)` parameter pairs of the
issued Connect transmits, and the number of `Resetter::reset`
invocations. -/

/-- The `for _ in 0..connect_retry` loop of `connect`: each attempt is a
`transmit(ConnectRequest, 50ms, 0)`; the first success returns `Ok`,
exhaustion returns `Timeout`. -/
def connectRetryLoop (outcome : Nat → Bool) : Nat → Nat →
    Except UpdError Unit × List (Nat × Nat)
  | _, 0 => (.error .timeout, [])
  | i, n + 1 =>
    if outcome i then (.ok (), [(50, 0)])
    else
      let r := connectRetryLoop outcome (i + 1) n
      (r.1, (50, 0) :: r.2)

/-- `Updater::connect`: one `transmit(Connect, connect_timeout, 0)`; on
failure `Resetter::reset` once (propagating its error), then up to
`connect_retry` transmits at 50 ms and `resend_retry = 0`. -/
def connectModel (outcome : Nat → Bool) (resetResult : Except UpdError Unit)
    (connectRetry connectTimeout : Nat) :
    Except UpdError Unit × List (Nat × Nat) × Nat :=
  if outcome 0 then (.ok (), [(connectTimeout, 0)], 0)
  else
    match resetResult with
    | .error e => (.error e, [(connectTimeout, 0)], 1)
    | .ok _ =>
      let r := connectRetryLoop outcome 1 connectRetry
      (r.1, (connectTimeout, 0) :: r.2, 1)

theorem connectRetryLoop_all_false (outcome : Nat → Bool) :
    ∀ (n i : Nat), (∀ k, i ≤ k → k < i + n → outcome k = false) →
    connectRetryLoop outcome i n = (.error .timeout, List.replicate n (50, 0)) := by
  intro n
  induction n with
  | zero => intro i _; rfl
  | succ n ih =>
    intro i hf
    rw [connectRetryLoop]
    rw [hf i (by omega) (by omega)]
    rw [ih (i + 1) (fun k hk1 hk2 => hf k (by omega) (by omega))]
    simp [List.replicate_succ]

theorem connectRetryLoop_first_true (outcome : Nat → Bool) :
    ∀ (n i j : Nat), i ≤ j → j < i + n → outcome j = true →
    (∀ k, i ≤ k → k < j → outcome k = false) →
    connectRetryLoop outcome i n = (.ok (), List.replicate (j - i + 1) (50, 0)) := by
  intro n
  induction n with
  | zero => intro i j h1 h2; omega
  | succ n ih =>
    intro i j h1 h2 hj hf
    rw [connectRetryLoop]
    by_cases hij : i = j
    · subst hij
      rw [hj]
      simp [List.replicate_succ]
    · rw [hf i (by omega) (by omega)]
      rw [ih (i + 1) j (by omega) (by omega) hj (fun k hk1 hk2 => hf k (by omega) hk2)]
      have h3 : j - i + 1 = (j - (i + 1) + 1) + 1 := by omega
      rw [h3]
      simp [List.replicate_succ]

/-! ## Claim C7 -/

/-- Claim C7: `connect` first attempts one Connect exchange with
`connect_timeout` and resend budget 0; on success it is done without
resetting.  Otherwise it invokes the `Resetter` exactly once and attempts
Connect up to `connect_retry` times with a 50 ms timeout and resend
budget 0, returning `Ok` on the first success and `Timeout` when all
`connect_retry` attempts fail. -/
theorem claim7_connect (outcome : Nat → Bool) (resetR : Except UpdError Unit)
    (retry ct : Nat) :
    (outcome 0 = true →
      connectModel outcome resetR retry ct = (.ok (), [(ct, 0)], 0)) ∧
    (outcome 0 = false → resetR = .ok () →
      (∀ i, 1 ≤ i → i ≤ retry → outcome i = false) →
      connectModel outcome resetR retry ct =
        (.error .timeout, (ct, 0) :: List.replicate retry (50, 0), 1)) ∧
    (∀ j, outcome 0 = false → resetR = .ok () → 1 ≤ j → j ≤ retry →
      outcome j = true → (∀ i, 1 ≤ i → i < j → outcome i = false) →
      connectModel outcome resetR retry ct =
        (.ok (), (ct, 0) :: List.replicate j (50, 0), 1)) := by
  refine ⟨?_, ?_, ?_⟩
  · intro h0
    rw [connectModel.eq_def, if_pos h0]
  · intro h0 hr hall
    subst hr
    have hred : connectModel outcome (.ok ()) retry ct =
        ((connectRetryLoop outcome 1 retry).1,
         (ct, 0) :: (connectRetryLoop outcome 1 retry).2, 1) := by
      rw [connectModel.eq_def, if_neg (by rw [h0]; exact fun h => Bool.false_ne_true h)]
    rw [hred, connectRetryLoop_all_false outcome retry 1
      (fun k hk1 hk2 => hall k hk1 (by omega))]
  · intro j h0 hr hj1 hj2 hjt hf
    subst hr
    have hred : connectModel outcome (.ok ()) retry ct =
        ((connectRetryLoop outcome 1 retry).1,
         (ct, 0) :: (connectRetryLoop outcome 1 retry).2, 1) := by
      rw [connectModel.eq_def, if_neg (by rw [h0]; exact fun h => Bool.false_ne_true h)]
    rw [hred, connectRetryLoop_first_true outcome retry 1 j hj1 (by omega) hjt
      (fun k hk1 hk2 => hf k hk1 hk2)]
    have h3 : j - 1 + 1 = j := by omega
    rw [h3]

/-- Claim C7, witness: the first post-reset attempt fails and the second
succeeds, so `connect` resets once and issues three Connect transmits —
one at `connect_timeout`, two at 50 ms, all with resend budget 0. -/
theorem claim7_connect_witness :
    connectModel (fun i => decide (i = 2)) (.ok ()) 5 1000 =
      (.ok (), [(1000, 0), (50, 0), (50, 0)], 1) := by
  have h := (claim7_connect (fun i => decide (i = 2)) (.ok ()) 5 1000).2.2 2
    (by decide) rfl (by omega) (by omega) (by decide)
    (fun i h1 h2 => by
      have : i = 1 := by omega
      rw [this]
      decide)
  exact h.trans (by decide)

/-! ## Firmware image file reader (`src/firmware.rs`) -/

/-- `FirmwareImageDescriptor` of `src/firmware.rs`. -/
structure FirmwareImageDescriptor where
  image_type : Nat
  next_idx : Nat
  error_idx : Nat
  image_offset : Nat
  image_size : Nat
deriving DecidableEq, Repr

/-- `FirmwareImage` of `src/firmware.rs` (the `HashSet` of device ids is
kept as the list of parsed ids; only membership matters). -/
structure FirmwareImage where
  device_ids : List Nat
  descriptors : List FirmwareImageDescriptor
  data : List Nat
deriving DecidableEq, Repr

/-- Failure modes of `FirmwareImage::open`: the two explicit
`InvalidData` errors, and the panics of out-of-bounds slicing /
`get_u8`-style reads on an exhausted buffer / the `filesize - 12`
usize underflow, all modelled as an error value. -/
inductive OpenError where
  | badSignature
  | badVersion
  | panicOutOfBounds
deriving DecidableEq, Repr

/-- `Buf::get_u8`. -/
def readU8 : List Nat → Except OpenError (Nat × List Nat)
  | [] => .error .panicOutOfBounds
  | b :: rest => .ok (b, rest)

/-- `Buf::get_u16` (big-endian). -/
def readU16 : List Nat → Except OpenError (Nat × List Nat)
  | b1 :: b2 :: rest => .ok (b1 * 256 + b2, rest)
  | _ => .error .panicOutOfBounds

/-- The `(0..device_ids_count).map(|_| buf.get_u16())` id reads. -/
def readDeviceIds : Nat → List Nat → Except OpenError (List Nat × List Nat)
  | 0, buf => .ok ([], buf)
  | n + 1, buf =>
    match readU16 buf with
    | .error e => .error e
    | .ok (id, buf) =>
      match readDeviceIds n buf with
      | .error e => .error e
      | .ok (ids, buf) => .ok (id :: ids, buf)

/-- One descriptor record: `image_type`, a reserved byte, `next_idx`,
`error_idx`, `image_offset: u32be`, `image_size: u32be`. -/
def readDescriptor (buf : List Nat) :
    Except OpenError (FirmwareImageDescriptor × List Nat) :=
  match buf with
  | t :: _reserved :: nx :: er :: o1 :: o2 :: o3 :: o4 :: s1 :: s2 :: s3 :: s4 :: rest =>
    .ok (⟨t, nx, er,
          ((o1 * 256 + o2) * 256 + o3) * 256 + o4,
          ((s1 * 256 + s2) * 256 + s3) * 256 + s4⟩, rest)
  | _ => .error .panicOutOfBounds

/-- The `(0..descriptor_count)` descriptor-record reads. -/
def readDescriptors : Nat → List Nat → Except OpenError (List FirmwareImageDescriptor × List Nat)
  | 0, buf => .ok ([], buf)
  | n + 1, buf =>
    match readDescriptor buf with
    | .error e => .error e
    | .ok (d, buf) =>
      match readDescriptors n buf with
      | .error e => .error e
      | .ok (ds, buf) => .ok (d :: ds, buf)

/-- `FirmwareImage::open` on the file's bytes: check the `STNFWv` magic
and the `05` version, read the device ids, read `descriptor_count`; if it
is zero synthesize the single descriptor
`{image_type: 0, next_idx: 0xFF, error_idx: 0, image_offset: 12,
image_size: (filesize - 12) as u32}`, otherwise read that many
descriptor records; the remaining buffer is `data`.  No validation of
offsets, sizes or `next_idx` is performed. -/
def openFirmware (file : List Nat) : Except OpenError FirmwareImage :=
  if file.length < 6 then .error .panicOutOfBounds
  else if file.take 6 ≠ [83, 84, 78, 70, 87, 118] then .error .badSignature
  else if (file.drop 6).length < 2 then .error .panicOutOfBounds
  else if (file.drop 6).take 2 ≠ [48, 53] then .error .badVersion
  else
    match readU8 ((file.drop 6).drop 2) with
    | .error e => .error e
    | .ok (idCount, buf) =>
      match readDeviceIds idCount buf with
      | .error e => .error e
      | .ok (ids, buf) =>
        match readU8 buf with
        | .error e => .error e
        | .ok (descCount, buf) =>
          if descCount = 0 then
            if file.length < 12 then .error .panicOutOfBounds
            else .ok ⟨ids, [⟨0x00, 0xFF, 0x00, 12, (file.length - 12) % 4294967296⟩], buf⟩
          else
            match readDescriptors descCount buf with
            | .error e => .error e
            | .ok (ds, buf) => .ok ⟨ids, ds, buf⟩

/-- The data-model invariant claimed by the specification for one
descriptor: the image slice lies within `data` and `next_idx` is terminal
or a valid index. -/
def descriptorOk (img : FirmwareImage) (d : FirmwareImageDescriptor) : Prop :=
  d.image_offset + d.image_size ≤ img.data.length ∧
  (d.next_idx = 0xFF ∨ d.next_idx < img.descriptors.length)

/-- The specification's data-model invariant for a whole image. -/
def imageInvariant (img : FirmwareImage) : Prop :=
  ∀ d ∈ img.descriptors, descriptorOk img d

/-! ## Claim C9 -/

/-- Claim C9, counterexample: the 12-byte file
`STNFWv05 01 12 34 00` (one device id `0x1234`, descriptor count zero)
is accepted by `FirmwareImage::open` with the synthesized descriptor
`{image_offset: 12, image_size: 0}` and empty `data`, violating
`image_offset + image_size ≤ len(data)`. -/
theorem claim9_counterexample :
    openFirmware [83, 84, 78, 70, 87, 118, 48, 53, 1, 0x12, 0x34, 0] =
      .ok ⟨[0x1234], [⟨0x00, 0xFF, 0x00, 12, 0⟩], []⟩ ∧
    ¬ imageInvariant ⟨[0x1234], [⟨0x00, 0xFF, 0x00, 12, 0⟩], []⟩ := by
  constructor
  · rfl
  · intro h
    have h2 := h ⟨0x00, 0xFF, 0x00, 12, 0⟩ (by simp)
    simp [descriptorOk] at h2

/-- Claim C9, amended: `FirmwareImage::open` validates nothing, and the
descriptor synthesized for `descriptor_count = 0` always violates the
invariant: its `image_offset + image_size` equals the file size, while
`data` excludes the header, so every zero-descriptor-count file (here
with one device id) yields an image breaking
`image_offset + image_size ≤ len(data)`; the synthesized `next_idx` is
`0xFF`, so the next-index half of the invariant holds. -/
theorem claim9_amended (id1 id2 : Nat) (rest : List Nat)
    (hsmall : rest.length < 4294967296) :
    openFirmware ([83, 84, 78, 70, 87, 118, 48, 53, 1, id1, id2, 0] ++ rest) =
      .ok ⟨[id1 * 256 + id2], [⟨0x00, 0xFF, 0x00, 12, rest.length⟩], rest⟩ ∧
    ¬ imageInvariant ⟨[id1 * 256 + id2], [⟨0x00, 0xFF, 0x00, 12, rest.length⟩], rest⟩ := by
  constructor
  · simp only [openFirmware, readU8, readU16, readDeviceIds, List.cons_append,
      List.nil_append, List.length_cons, List.take_succ_cons, List.take_zero,
      List.drop_succ_cons, List.drop_zero]
    split_ifs with hc1 hc2 hc3 hc4 hc5
    · exact absurd hc1 (by omega)
    · exact absurd rfl hc2
    · exact absurd hc3 (by omega)
    · exact absurd rfl hc4
    · exact absurd hc5 (by omega)
    · have he : rest.length + 1 + 1 + 1 + 1 + 1 + 1 + 1 + 1 + 1 + 1 + 1 + 1 - 12 =
          rest.length := by omega
      rw [he, Nat.mod_eq_of_lt hsmall]
  · intro h
    have h2 := h ⟨0x00, 0xFF, 0x00, 12, rest.length⟩ (by simp)
    simp only [descriptorOk] at h2
    exact absurd h2.1 (by omega)

/-- Claim C9, witness: the amended statement at a 13-byte file with one
byte of image data. -/
theorem claim9_amended_witness :
    openFirmware ([83, 84, 78, 70, 87, 118, 48, 53, 1, 0x12, 0x34, 0] ++ [9]) =
      .ok ⟨[0x12 * 256 + 0x34], [⟨0x00, 0xFF, 0x00, 12, [(9 : Nat)].length⟩], [9]⟩ ∧
    ¬ imageInvariant
        ⟨[0x12 * 256 + 0x34], [⟨0x00, 0xFF, 0x00, 12, [(9 : Nat)].length⟩], [9]⟩ :=
  claim9_amended 0x12 0x34 [9] (by norm_num)

/-! ## The `upload_firmware` driver loop (`src/updater.rs` lines 217-263)

The per-descriptor I/O (StartUpload, the chunk loop) is abstracted as
succeeding; what remains of the loop body is how `image_idx` evolves:
stop when `next_idx == 0xFF`, move to `next_idx` when `image_type` is
`0x00`, and — because the `0x01` and `0x10` match arms are empty TODOs —
keep the same `image_idx` for those types; an unknown type hits
`unreachable!`, an out-of-range index panics. -/

/-- The effect of one iteration of the `upload_firmware` loop on
`image_idx`. -/
inductive StepResult where
  | halt
  | next (i : Nat)
  | stuck
deriving DecidableEq, Repr

/-- One iteration of the driver loop: look up the descriptor (a missing
index is the source's slice panic, `stuck`), stop on `next_idx = 0xFF`,
else dispatch on `image_type` (`0x00` advances; the empty `0x01`/`0x10`
arms leave `image_idx` unchanged; anything else is `unreachable!`). -/
def uploadStep (descs : List FirmwareImageDescriptor) (idx : Nat) : StepResult :=
  match descs.get? idx with
  | none => .stuck
  | some d =>
    if d.next_idx ≠ 0xFF then
      if d.image_type = 0x00 then .next d.next_idx
      else if d.image_type = 0x01 then .next idx
      else if d.image_type = 0x10 then .next idx
      else .stuck
    else .halt

/-- The sequence of `image_idx` values the driver loop visits within the
first `fuel` iterations (the visit list stops growing once the loop
halts or panics). -/
def visits (descs : List FirmwareImageDescriptor) : Nat → Nat → List Nat
  | 0, _ => []
  | fuel + 1, idx =>
    idx :: (match uploadStep descs idx with
            | .next j => visits descs fuel j
            | _ => [])

/-- The specification's notion of a valid descriptor chain starting at
`idx`: each entry exists, carries a recognized `image_type`
(0x00, 0x01 or 0x10), links to the next entry through `next_idx`, never
revisits an entry, and the last entry is terminal (`next_idx = 0xFF`). -/
inductive SpecChain (descs : List FirmwareImageDescriptor) : Nat → List Nat → Prop where
  | last (idx : Nat) (d : FirmwareImageDescriptor) :
      descs.get? idx = some d → d.next_idx = 0xFF → SpecChain descs idx [idx]
  | cons (idx : Nat) (d : FirmwareImageDescriptor) (rest : List Nat) :
      descs.get? idx = some d → d.next_idx ≠ 0xFF →
      (d.image_type = 0x00 ∨ d.image_type = 0x01 ∨ d.image_type = 0x10) →
      SpecChain descs d.next_idx rest → idx ∉ rest →
      SpecChain descs idx (idx :: rest)

/-- A valid descriptor chain all of whose non-terminal entries have
`image_type = 0x00` (the only type the driver actually advances on). -/
inductive DescChain (descs : List FirmwareImageDescriptor) : Nat → List Nat → Prop where
  | last (idx : Nat) (d : FirmwareImageDescriptor) :
      descs.get? idx = some d → d.next_idx = 0xFF → DescChain descs idx [idx]
  | cons (idx : Nat) (d : FirmwareImageDescriptor) (rest : List Nat) :
      descs.get? idx = some d → d.next_idx ≠ 0xFF → d.image_type = 0x00 →
      DescChain descs d.next_idx rest → idx ∉ rest →
      DescChain descs idx (idx :: rest)

/-! ## Claim C8 -/

/-- Claim C8, counterexample: the two-descriptor image whose first
descriptor has the recognized `image_type = 0x01` and `next_idx = 1`,
and whose second is terminal, is a valid acyclic chain `[0, 1]`; yet the
driver loop revisits descriptor 0 on its second iteration (the empty
`0x01` TODO arm never advances `image_idx`), violating
visit-each-descriptor-at-most-once. -/
theorem claim8_counterexample :
    SpecChain [⟨0x01, 1, 0, 0, 0⟩, ⟨0x00, 0xFF, 0, 0, 0⟩] 0 [0, 1] ∧
    visits [⟨0x01, 1, 0, 0, 0⟩, ⟨0x00, 0xFF, 0, 0, 0⟩] 2 0 = [0, 0] := by
  constructor
  · exact SpecChain.cons 0 ⟨0x01, 1, 0, 0, 0⟩ [1] rfl (by decide) (by decide)
      (SpecChain.last 1 ⟨0x00, 0xFF, 0, 0, 0⟩ rfl rfl) (by decide)
  · rfl

/-- Claim C8, amended: when every non-terminal descriptor on the chain
from the start index has `image_type = 0x00`, the driver loop follows the
chain exactly, visits each reachable descriptor at most once, and
terminates (giving the loop more fuel changes nothing); with a
non-terminal `0x01`/`0x10` descriptor on the chain the loop repeats that
descriptor forever instead. -/
theorem claim8_amended (descs : List FirmwareImageDescriptor) (idx : Nat)
    (L : List Nat) (h : DescChain descs idx L) :
    visits descs L.length idx = L ∧ L.Nodup ∧
    ∀ n, L.length ≤ n → visits descs n idx = L := by
  induction h with
  | last i d hget hterm =>
    have hstep : uploadStep descs i = .halt := by
      rw [uploadStep, hget]
      simp [hterm]
    refine ⟨?_, by simp, ?_⟩
    · simp [visits, hstep]
    · intro n hn
      match n, hn with
      | m + 1, _ => simp [visits, hstep]
  | cons i d rest hget hnx htype hchain hnotin ih =>
    have hstep : uploadStep descs i = .next d.next_idx := by
      rw [uploadStep, hget]
      simp [hnx, htype]
    refine ⟨?_, ?_, ?_⟩
    · simp [visits, hstep, ih.1]
    · simp only [List.nodup_cons]
      exact ⟨hnotin, ih.2.1⟩
    · intro n hn
      match n, hn with
      | m + 1, hm =>
        simp [visits, hstep, ih.2.2 m (by simp at hm; omega)]

/-- Claim C8, witness: a two-descriptor type-0 chain is visited exactly
once per descriptor and the loop stops, even with surplus fuel. -/
theorem claim8_amended_witness :
    visits [⟨0x00, 1, 0, 0, 0⟩, ⟨0x00, 0xFF, 0, 0, 0⟩] 2 0 = [0, 1] ∧
    ([0, 1] : List Nat).Nodup ∧
    visits [⟨0x00, 1, 0, 0, 0⟩, ⟨0x00, 0xFF, 0, 0, 0⟩] 7 0 = [0, 1] := by
  have h := claim8_amended [⟨0x00, 1, 0, 0, 0⟩, ⟨0x00, 0xFF, 0, 0, 0⟩] 0 [0, 1]
    (DescChain.cons 0 ⟨0x00, 1, 0, 0, 0⟩ [1] rfl (by decide) rfl
      (DescChain.last 1 ⟨0x00, 0xFF, 0, 0, 0⟩ rfl rfl) (by decide))
  exact ⟨h.1, h.2.1, h.2.2 7 (by norm_num)⟩

/-! ## Chunk-size arithmetic of `upload_firmware`
(`src/updater.rs` lines 223-231) -/

/-- The effective chunk size: `(min(chunk_size as u16, max_chunk_size)
& !15) as usize` — the configured size truncated to `u16`, clamped to
the device's maximum, rounded down to a multiple of 16
(`!15u16 = 0xFFF0`). -/
def effectiveChunkSize (configured maxChunk : Nat) : Nat :=
  (min (configured % 65536) maxChunk) &&& 0xFFF0

/-- The chunk count `(firmware_data.len() + chunk_size - 1) / chunk_size`;
Rust integer division panics on a zero divisor, modelled as `none`. -/
def numChunks (len chunkSize : Nat) : Option Nat :=
  if chunkSize = 0 then none else some ((len + chunkSize - 1) / chunkSize)

theorem and_mask_high_eq_zero : ∀ v < 16, v &&& 0xFFF0 = 0 := by
  decide

/-! ## Claim C10 -/

/-- Claim C10: when `StartUpload`'s response reports `maxChunkSize < 16`,
the effective chunk size `min(configured, maxChunkSize) & !15` is 0 for
every configured chunk size, and the chunk-count computation
`(len + chunk_size - 1) / chunk_size` of `upload_firmware` divides by
zero (a Rust panic), so `upload_firmware` is panic-free only under the
precondition `maxChunkSize ≥ 16`. -/
theorem claim10_chunk_div_zero (configured maxChunk len : Nat)
    (h : maxChunk < 16) :
    effectiveChunkSize configured maxChunk = 0 ∧
    numChunks len (effectiveChunkSize configured maxChunk) = none := by
  have hmin : min (configured % 65536) maxChunk < 16 :=
    Nat.lt_of_le_of_lt (Nat.min_le_right _ _) h
  have h0 : effectiveChunkSize configured maxChunk = 0 :=
    and_mask_high_eq_zero _ hmin
  exact ⟨h0, by rw [h0]; rfl⟩

/-- Claim C10, witness: the default configured chunk size 1024 with a
reported `maxChunkSize = 8` and a 48-byte image panics in the chunk-count
division. -/
theorem claim10_chunk_div_zero_witness :
    effectiveChunkSize 1024 8 = 0 ∧ numChunks 48 (effectiveChunkSize 1024 8) = none :=
  claim10_chunk_div_zero 1024 8 48 (by omega)

end StnUpdater
